import Mathlib

/-!
Verification of the bindicator firmware OTA pipeline and health supervisor.

This file gives a shallow embedding, in Lean, of the OTA transfer server
(`handleOTASession`, `otaServerLoop` post-session handling), the OTA access
window (`OTAEnable` / `OTADisable` / `OTAIsEnabled`), and the functional
watchdog / health supervisor (`checkSystemHealth`, `feedWatchdogIfHealthy`,
the duty-cycle failure/success bookkeeping), together with theorems about
their behaviour.

Modelling conventions:
* machine integers are `Nat` with explicit `% 2^32` where the Go code does
  `uint32` arithmetic that can wrap;
* `time.Time` / `time.Duration` values are `Nat` nanosecond counts
  (`time.Since t = now - t` on the monotonic clock, so `now ≥ t`);
* bytes are `Nat` values `< 256`;
* the TCP connection is replaced by a script: the handshake line the client
  sends, followed by a list of messages (binary chunks or the `DONE` line);
  running out of script corresponds to the 30 s read timeout firing with no
  further data (the code then returns without writing anything);
* consecutive `writeOTA`/`writeOTAInt` calls that assemble one protocol line
  are modelled as a single output string;
* the flash driver (`ota.EraseSector`, `ota.WriteChunk`) is external hardware
  access; the model records each call as an event and assumes it succeeds.
  Offsets recorded in events are relative to the partition base: the code
  passes `partitionOffset + x` for a session-constant `partitionOffset`,
  which is dropped uniformly from the trace.
-/

/-! ## SHA-256 (the behaviour of Go's `crypto/sha256` used by the session) -/

/-- `2^32`, the modulus for all 32-bit arithmetic below. -/
def M32 : Nat := 4294967296

/-- 32-bit rotate right. -/
def rotr32 (n x : Nat) : Nat := ((x >>> n) ||| (x <<< (32 - n))) % M32

/-- The 64 round constants of FIPS 180-4, written in decimal. -/
def shaK : List Nat :=
  [1116352408, 1899447441, 3049323471, 3921009573, 961987163,
   1508970993, 2453635748, 2870763221, 3624381080, 310598401,
   607225278, 1426881987, 1925078388, 2162078206, 2614888103,
   3248222580, 3835390401, 4022224774, 264347078, 604807628,
   770255983, 1249150122, 1555081692, 1996064986, 2554220882,
   2821834349, 2952996808, 3210313671, 3336571891, 3584528711,
   113926993, 338241895, 666307205, 773529912, 1294757372,
   1396182291, 1695183700, 1986661051, 2177026350, 2456956037,
   2730485921, 2820302411, 3259730800, 3345764771, 3516065817,
   3600352804, 4094571909, 275423344, 430227734, 506948616,
   659060556, 883997877, 958139571, 1322822218, 1537002063,
   1747873779, 1955562222, 2024104815, 2227730452, 2361852424,
   2428436474, 2756734187, 3204031479, 3329325298]

/-- The eight initial hash words of FIPS 180-4, written in decimal. -/
def shaH0 : List Nat :=
  [1779033703, 3144134277, 1013904242,
   2773480762, 1359893119, 2600822924,
   528734635, 1541459225]

/-- SHA-256 `Ch` function (`¬x` taken as 32-bit complement). -/
def shaCh (x y z : Nat) : Nat := (x &&& y) ^^^ ((x ^^^ 0xffffffff) &&& z)

/-- SHA-256 `Maj` function. -/
def shaMaj (x y z : Nat) : Nat := (x &&& y) ^^^ (x &&& z) ^^^ (y &&& z)

/-- SHA-256 small sigma 0 (message schedule). -/
def shaSigma0 (x : Nat) : Nat := (rotr32 7 x) ^^^ (rotr32 18 x) ^^^ (x >>> 3)

/-- SHA-256 small sigma 1 (message schedule). -/
def shaSigma1 (x : Nat) : Nat := (rotr32 17 x) ^^^ (rotr32 19 x) ^^^ (x >>> 10)

/-- SHA-256 big sigma 0 (compression). -/
def shaBigSigma0 (x : Nat) : Nat := (rotr32 2 x) ^^^ (rotr32 13 x) ^^^ (rotr32 22 x)

/-- SHA-256 big sigma 1 (compression). -/
def shaBigSigma1 (x : Nat) : Nat := (rotr32 6 x) ^^^ (rotr32 11 x) ^^^ (rotr32 25 x)

/-- SHA-256 padding: append `0x80`, zero bytes to 56 mod 64, then the 64-bit
big-endian bit length. -/
def sha256pad (msg : List Nat) : List Nat :=
  let L := msg.length
  let zeros := (119 - L % 64) % 64
  msg ++ [0x80] ++ List.replicate zeros 0 ++
    (List.range 8).map (fun i => ((8 * L) >>> (8 * (7 - i))) % 256)

/-- Group a byte list into big-endian 32-bit words. -/
def beWords : List Nat → List Nat
  | b0 :: b1 :: b2 :: b3 :: rest =>
      (b0 * 16777216 + b1 * 65536 + b2 * 256 + b3) :: beWords rest
  | _ => []

/-- Extend a 16-word message schedule by `n` further words. -/
def shaExtend (w : List Nat) : Nat → List Nat
  | 0 => w
  | n + 1 =>
      let w2 := shaExtend w n
      let l := w2.length
      w2 ++ [(shaSigma1 (w2.getD (l - 2) 0) + w2.getD (l - 7) 0 +
              shaSigma0 (w2.getD (l - 15) 0) + w2.getD (l - 16) 0) % M32]

/-- SHA-256 working variables. -/
structure SHAState where
  a : Nat
  b : Nat
  c : Nat
  d : Nat
  e : Nat
  f : Nat
  g : Nat
  h : Nat

/-- One SHA-256 compression round with constant/word pair `kw`. -/
def shaRound (st : SHAState) (kw : Nat × Nat) : SHAState :=
  let t1 := (st.h + shaBigSigma1 st.e + shaCh st.e st.f st.g + kw.1 + kw.2) % M32
  let t2 := (shaBigSigma0 st.a + shaMaj st.a st.b st.c) % M32
  ⟨(t1 + t2) % M32, st.a, st.b, st.c, (st.d + t1) % M32, st.e, st.f, st.g⟩

/-- Compress one 64-byte block into the running hash. -/
def shaCompress (hs : List Nat) (block : List Nat) : List Nat :=
  let w := shaExtend (beWords block) 48
  let st0 : SHAState :=
    ⟨hs.getD 0 0, hs.getD 1 0, hs.getD 2 0, hs.getD 3 0,
     hs.getD 4 0, hs.getD 5 0, hs.getD 6 0, hs.getD 7 0⟩
  let st := (shaK.zip w).foldl shaRound st0
  [(hs.getD 0 0 + st.a) % M32, (hs.getD 1 0 + st.b) % M32,
   (hs.getD 2 0 + st.c) % M32, (hs.getD 3 0 + st.d) % M32,
   (hs.getD 4 0 + st.e) % M32, (hs.getD 5 0 + st.f) % M32,
   (hs.getD 6 0 + st.g) % M32, (hs.getD 7 0 + st.h) % M32]

/-- Split a list into `n` successive 64-byte blocks. -/
def chunks64 : Nat → List Nat → List (List Nat)
  | 0, _ => []
  | n + 1, l => l.take 64 :: chunks64 n (l.drop 64)

/-- SHA-256 of a byte list, as a 32-byte list. -/
def sha256 (msg : List Nat) : List Nat :=
  let padded := sha256pad msg
  let hs := (chunks64 (padded.length / 64) padded).foldl shaCompress shaH0
  hs.foldr (fun w acc =>
    (w >>> 24) % 256 :: (w >>> 16) % 256 :: (w >>> 8) % 256 :: w % 256 :: acc) []

/-! ## OTA transfer session (`handleOTASession`) -/

/-- `otaBufSize` constant: 4 KB chunk plus header room. -/
def otaBufSize : Nat := 4096 + 64

/-- `otaMaxFwSize` constant: maximum firmware size (1984 KB). -/
def otaMaxFwSize : Nat := 1984 * 1024

/-- `ota.SectorSize`: flash erase granularity, 4 KiB. -/
def sectorSize : Nat := 4096

/-- Length of the session's `erasedSectors` bitmap (512 sectors = 2 MB). -/
def erasedSectorsLen : Nat := 512

/-- Characters trimmed by the source's `trimSpace`. -/
def isTrimChar (c : Char) : Bool := c == ' ' || c == '\n' || c == '\r'

/-- `trimSpace`: drop leading and trailing spaces, newlines, carriage returns. -/
def trimSpace (s : List Char) : List Char :=
  ((s.dropWhile isTrimChar).reverse.dropWhile isTrimChar).reverse

/-- The constant `hexDigits = "0123456789abcdef"` of the source, as the list
of its characters. -/
def hexDigitList : List Char := "0123456789abcdef".data

/-- `formatHashHex`: lowercase hex of a byte list (`b >>> 4` is `b / 16` and
`b &&& 0xf` is `b % 16` for bytes `< 256`). -/
def formatHashHex (hash : List Nat) : List Char :=
  hash.foldr (fun b acc =>
    hexDigitList.getD (b / 16) '0' :: hexDigitList.getD (b % 16) '0' :: acc) []

/-- One message of the client's scripted input after the handshake: either a
binary chunk (the 4-byte little-endian length field carrying `data.length`,
then the `data` bytes), or the literal `DONE` header followed by the bytes
`rest` of the completion line. -/
inductive OTAMsg where
  | chunk (data : List Nat)
  | done (rest : List Char)
deriving DecidableEq

/-- A flash-driver call made during a session. Offsets are relative to the
target partition base (the code passes `partitionOffset + offset`); `erase s`
records `ota.EraseSector` for sector index `s`, `write o l` records
`ota.WriteChunk` for `l` bytes at offset `o`. -/
inductive FlashEv where
  | erase (sector : Nat)
  | write (offset : Nat) (size : Nat)
deriving DecidableEq

/-- How a session ends in the model.  `noInit`/`badInit` are the handshake
failures, `readTimeout` covers any read deadline expiring (including the
script running out), the three `ERROR` outcomes name their protocol error,
and `reboot` means control reached `ota.RebootToPartition`. -/
inductive SessionEnd where
  | noInit
  | badInit
  | readTimeout
  | chunkTooLarge
  | firmwareTooLarge
  | hashMismatch
  | reboot
deriving DecidableEq

/-- Result of a session: the protocol lines written to the connection, the
flash-driver calls made, and how the session ended. -/
structure SessionResult where
  outputs : List String
  events : List FlashEv
  outcome : SessionEnd
deriving DecidableEq

/-- The erase-on-demand inner loop (`for sector := startSector; sector <=
endSector; sector++`): erase each listed sector that is inside the bitmap and
not yet erased, marking it erased.  The bitmap is modelled as the list of
sector indices currently marked `true`. -/
def eraseLoop : List Nat → List Nat → List Nat × List FlashEv
  | [], erased => (erased, [])
  | s :: rest, erased =>
      if s < erasedSectorsLen && !(erased.contains s) then
        let r := eraseLoop rest (erased ++ [s])
        (r.1, FlashEv.erase s :: r.2)
      else
        eraseLoop rest erased

/-- The receive loop of `handleOTASession` (lines 276-462): `totalBytes` is
the running byte count, `hacc` the bytes fed to the SHA-256 hasher, `erased`
the erased-sector bitmap, `outs`/`evs` the output lines and flash events so
far.  `endSector` is computed with `uint32` wraparound exactly as
`(totalBytes + chunkLen - 1) / ota.SectorSize` is in the code. -/
def otaLoop : List OTAMsg → Nat → List Nat → List Nat → List String → List FlashEv → SessionResult
  | [], _, _, _, outs, evs => ⟨outs, evs, SessionEnd.readTimeout⟩
  | OTAMsg.done rest :: _, _, hacc, _, outs, evs =>
      let fullCmd : List Char := ['D', 'O', 'N', 'E'] ++ rest
      let expectedHash : List Char :=
        if 5 < fullCmd.length then trimSpace (fullCmd.drop 5) else []
      let actualHashHex : List Char := formatHashHex (sha256 hacc)
      if expectedHash ≠ [] ∧ expectedHash ≠ actualHashHex then
        ⟨outs ++ ["ERROR hash mismatch\n"], evs, SessionEnd.hashMismatch⟩
      else
        ⟨outs ++ ["VERIFIED\n"], evs, SessionEnd.reboot⟩
  | OTAMsg.chunk data :: rest, totalBytes, hacc, erased, outs, evs =>
      let chunkLen := data.length
      if otaBufSize < chunkLen then
        ⟨outs ++ ["ERROR chunk too large\n"], evs, SessionEnd.chunkTooLarge⟩
      else if otaMaxFwSize < totalBytes + chunkLen then
        ⟨outs ++ ["ERROR firmware too large\n"], evs, SessionEnd.firmwareTooLarge⟩
      else
        let startSector := totalBytes / sectorSize
        let endSector := ((totalBytes + chunkLen + (M32 - 1)) % M32) / sectorSize
        let er := eraseLoop (List.range' startSector (endSector + 1 - startSector)) erased
        otaLoop rest (totalBytes + chunkLen) (hacc ++ data) er.1
          (outs ++ ["ACK " ++ Nat.repr (totalBytes + chunkLen) ++ "\n"])
          (evs ++ er.2 ++ [FlashEv.write totalBytes chunkLen])

/-- `handleOTASession`: the handshake (lines 237-257) followed by the receive
loop.  `init` is what the first `readWithTimeout` returned; fewer than 3
bytes (or nothing before the deadline) is `no-init`, anything not starting
with `OTA` is `bad-init`; both return without writing.  On success the
server sends `READY <otaMaxFwSize>` and enters the loop with a fresh
all-false erased-sector bitmap, zero bytes received and an empty hasher. -/
def handleOTASession (init : List Char) (msgs : List OTAMsg) : SessionResult :=
  if init.length < 3 then ⟨[], [], SessionEnd.noInit⟩
  else if init.take 3 ≠ ['O', 'T', 'A'] then ⟨[], [], SessionEnd.badInit⟩
  else otaLoop msgs 0 [] [] ["READY " ++ Nat.repr otaMaxFwSize ++ "\n"] []

/-- The well-formed handshake line `OTA\n`. -/
def otaInit : List Char := ['O', 'T', 'A', '\n']

/-- The `READY` line the server sends after a good handshake. -/
def readyLine : String := "READY " ++ Nat.repr otaMaxFwSize ++ "\n"

/-! ## OTA access window (`OTAEnable` / `OTADisable` / `OTAIsEnabled`) -/

/-- `otaDefaultTimeout`: 10 minutes, in nanoseconds. -/
def otaDefaultTimeout : Nat := 600 * 1000000000

/-- The mutex-protected OTA access-window state (`otaEnabled`,
`otaEnabledAt`, `otaTimeout`); timestamps and durations in nanoseconds. -/
structure OTAState where
  otaEnabled : Bool
  otaEnabledAt : Nat
  otaTimeout : Nat
deriving DecidableEq

/-- `OTAEnable`: enable the OTA server at time `now` for `timeout`
(0 means the default). -/
def OTAEnable (st : OTAState) (now timeout : Nat) : OTAState :=
  let t := if timeout = 0 then otaDefaultTimeout else timeout
  let _ := st
  ⟨true, now, t⟩

/-- `OTADisable`: disable the OTA server. -/
def OTADisable (st : OTAState) : OTAState := { st with otaEnabled := false }

/-- `OTAIsEnabled` queried at time `now`: false when disabled; when the
elapsed time exceeds the timeout the flag is lazily cleared and false is
returned; otherwise true.  Returns the answer and the updated state. -/
def OTAIsEnabled (st : OTAState) (now : Nat) : Bool × OTAState :=
  if !st.otaEnabled then (false, st)
  else if st.otaTimeout < now - st.otaEnabledAt then (false, { st with otaEnabled := false })
  else (true, st)

/-- One observable iteration outcome of `otaServerLoop` (lines 154-215):
either the iteration ended before a session ran (listen failure, OTA
disabled while waiting, connection not synchronized — the loop just
continues), or `handleOTASession` ran and ended with `o`.  After a session
the loop closes the connection and calls `OTADisable()` unconditionally
(line 214); a `reboot` outcome never returns control to the loop. -/
inductive LoopEvent where
  | listenFailed
  | disabledWhileWaiting
  | notSynchronized
  | session (o : SessionEnd)
deriving DecidableEq

/-- Effect of one `otaServerLoop` iteration on the access-window state. -/
def otaServerLoopIter (st : OTAState) (ev : LoopEvent) : OTAState :=
  match ev with
  | LoopEvent.listenFailed => st
  | LoopEvent.disabledWhileWaiting => st
  | LoopEvent.notSynchronized => st
  | LoopEvent.session o => if o = SessionEnd.reboot then st else OTADisable st

/-! ## Health / functional watchdog supervisor -/

/-- `maxConsecutiveFailures` threshold. -/
def maxConsecutiveFailures : Nat := 3

/-- `maxHoursWithoutRefresh` (12 hours) in nanoseconds; the code compares
`time.Since(lastSuccessfulRefresh).Hours() >= 12`, modelled exactly over
nanosecond counts. -/
def maxNsWithoutRefresh : Nat := 12 * 3600 * 1000000000

/-- The functional watchdog state (`lastSuccessfulRefresh`,
`consecutiveFailures`, `systemHealthy`); timestamps in nanoseconds. -/
structure HealthState where
  lastSuccessfulRefresh : Nat
  consecutiveFailures : Nat
  systemHealthy : Bool
deriving DecidableEq

/-- `checkSystemHealth` at time `now`: sets `systemHealthy := false` when
`consecutiveFailures >= 3` or at least 12 hours passed since the last
success; otherwise leaves the state unchanged.  It never sets the flag back
to true. -/
def checkSystemHealth (st : HealthState) (now : Nat) : HealthState :=
  if maxConsecutiveFailures ≤ st.consecutiveFailures then
    { st with systemHealthy := false }
  else if maxNsWithoutRefresh ≤ now - st.lastSuccessfulRefresh then
    { st with systemHealthy := false }
  else st

/-- A duty-cycle failure report (main loop, MQTT retries exhausted):
`consecutiveFailures++` followed by `checkSystemHealth`. -/
def reportFailure (st : HealthState) (now : Nat) : HealthState :=
  checkSystemHealth { st with consecutiveFailures := st.consecutiveFailures + 1 } now

/-- A duty-cycle success report: reset `consecutiveFailures` to zero and
update `lastSuccessfulRefresh`; `systemHealthy` is not touched. -/
def reportSuccess (st : HealthState) (now : Nat) : HealthState :=
  { st with consecutiveFailures := 0, lastSuccessfulRefresh := now }

/-- `feedWatchdogIfHealthy`: returns whether `machine.Watchdog.Update()` is
invoked, which happens exactly when `systemHealthy` holds. -/
def feedWatchdogIfHealthy (st : HealthState) : Bool := st.systemHealthy

/-- One step of the program that touches the health state or the hardware
watchdog: a duty-cycle failure or success report, any of the
`feedWatchdogIfHealthy` call sites, or `fatalError` (which sets
`systemHealthy = false`). -/
inductive DutyStep where
  | fail (now : Nat)
  | succeed (now : Nat)
  | feed
  | fatal
deriving DecidableEq

/-- State transition of one `DutyStep`. -/
def dutyStep (st : HealthState) : DutyStep → HealthState
  | DutyStep.fail now => reportFailure st now
  | DutyStep.succeed now => reportSuccess st now
  | DutyStep.feed => st
  | DutyStep.fatal => { st with systemHealthy := false }

/-- Whether a `DutyStep` feeds the hardware watchdog from state `st`. -/
def dutyFeeds (st : HealthState) : DutyStep → Bool
  | DutyStep.feed => feedWatchdogIfHealthy st
  | _ => false

/-- Run a list of duty steps from a state. -/
def runDuty (st : HealthState) : List DutyStep → HealthState
  | [] => st
  | s :: rest => runDuty (dutyStep st s) rest

/-- Whether any step in the list feeds the hardware watchdog. -/
def anyFeed (st : HealthState) : List DutyStep → Bool
  | [] => false
  | s :: rest => dutyFeeds st s || anyFeed (dutyStep st s) rest

/-! ## Derived definitions used to state the claims -/

/-- The sector index list the erase-on-demand loop walks for one chunk:
`startSector .. endSector` inclusive, with `endSector` computed as the
`uint32` expression `(totalBytes + chunkLen - 1) / ota.SectorSize`. -/
def chunkSectors (total len : Nat) : List Nat :=
  List.range' (total / sectorSize)
    (((total + len + (M32 - 1)) % M32) / sectorSize + 1 - total / sectorSize)

/-- The erased-sector bitmap and flash-event trace produced by a list of
accepted chunks starting from bitmap `erased` and byte count `total`. -/
def chunkTrace : List Nat → Nat → List (List Nat) → List Nat × List FlashEv
  | erased, _, [] => (erased, [])
  | erased, total, d :: ds =>
      let er := eraseLoop (chunkSectors total d.length) erased
      let r := chunkTrace er.1 (total + d.length) ds
      (r.1, er.2 ++ FlashEv.write total d.length :: r.2)

/-- Every chunk in the list passes both size checks when received in order
starting from byte count `total` (so the whole stream is ACKed). -/
def chunksOK : Nat → List (List Nat) → Bool
  | _, [] => true
  | total, d :: ds =>
      decide (d.length ≤ otaBufSize) && decide (total + d.length ≤ otaMaxFwSize) &&
        chunksOK (total + d.length) ds

/-- Total number of bytes in a chunk list. -/
def sumLens : List (List Nat) → Nat
  | [] => 0
  | d :: ds => d.length + sumLens ds

/-- The `ACK <cumulative>` lines produced by a list of accepted chunks. -/
def ackLines : Nat → List (List Nat) → List String
  | _, [] => []
  | total, d :: ds =>
      ("ACK " ++ Nat.repr (total + d.length) ++ "\n") :: ackLines (total + d.length) ds

/-- The client-supplied digest the session parses from a `DONE` completion
line whose bytes after the `DONE` header were `rest`. -/
def doneExpected (rest : List Char) : List Char :=
  let fullCmd : List Char := ['D', 'O', 'N', 'E'] ++ rest
  if 5 < fullCmd.length then trimSpace (fullCmd.drop 5) else []

/-- The lowercase hex digest the session computes for a chunk stream. -/
def sessionDigestHex (ds : List (List Nat)) : List Char :=
  formatHashHex (sha256 ds.flatten)

/-- ASCII lowercase of one character. -/
def asciiLower (c : Char) : Char :=
  if 'A' ≤ c ∧ c ≤ 'Z' then Char.ofNat (c.toNat + 32) else c

/-- Case-insensitive equality of character lists (both sides lowercased). -/
def lowerEqList (a b : List Char) : Bool :=
  a.map asciiLower == b.map asciiLower

/-- Just the erase events of a flash trace. -/
def eraseEvents (evs : List FlashEv) : List FlashEv :=
  evs.filter (fun e => match e with | FlashEv.erase _ => true | _ => false)

/-- How many times sector `s` is erased in a flash trace. -/
def countErase (evs : List FlashEv) (s : Nat) : Nat :=
  (evs.filter (fun e => e == FlashEv.erase s)).length

/-- The sector indices touched by a write of `size` bytes at `offset`. -/
def writeSectors (offset size : Nat) : List Nat :=
  if size = 0 then []
  else List.range' (offset / sectorSize)
    ((offset + size - 1) / sectorSize + 1 - offset / sectorSize)

/-- Trace checker: every erase is of a sector not erased before (no sector is
erased twice), and every write only touches sectors erased earlier.  `er` is
the list of sectors erased so far. -/
def wellErased : List FlashEv → List Nat → Bool
  | [], _ => true
  | FlashEv.erase s :: tr, er => !(er.contains s) && wellErased tr (s :: er)
  | FlashEv.write o l :: tr, er =>
      (writeSectors o l).all (fun s => er.contains s) && wellErased tr er

/-- Number of sectors wholly or partly covered by the first `t` bytes:
`⌈t / sectorSize⌉`. -/
def ceilSec (t : Nat) : Nat := (t + (sectorSize - 1)) / sectorSize

/-! ## Basic unfolding lemmas for the session loop -/

set_option maxRecDepth 4000

theorem otaLoop_nil (total : Nat) (hacc erased : List Nat) (outs : List String)
    (evs : List FlashEv) :
    otaLoop [] total hacc erased outs evs = ⟨outs, evs, SessionEnd.readTimeout⟩ := rfl

theorem otaLoop_chunk_step (data : List Nat) (rest : List OTAMsg) (total : Nat)
    (hacc erased : List Nat) (outs : List String) (evs : List FlashEv)
    (h1 : data.length ≤ otaBufSize) (h2 : total + data.length ≤ otaMaxFwSize) :
    otaLoop (OTAMsg.chunk data :: rest) total hacc erased outs evs =
      otaLoop rest (total + data.length) (hacc ++ data)
        (eraseLoop (chunkSectors total data.length) erased).1
        (outs ++ ["ACK " ++ Nat.repr (total + data.length) ++ "\n"])
        (evs ++ (eraseLoop (chunkSectors total data.length) erased).2
          ++ [FlashEv.write total data.length]) := by
  simp only [otaLoop, chunkSectors]
  rw [if_neg (not_lt.mpr h1), if_neg (not_lt.mpr h2)]

theorem otaLoop_chunk_too_large (data : List Nat) (rest : List OTAMsg) (total : Nat)
    (hacc erased : List Nat) (outs : List String) (evs : List FlashEv)
    (h : otaBufSize < data.length) :
    otaLoop (OTAMsg.chunk data :: rest) total hacc erased outs evs =
      ⟨outs ++ ["ERROR chunk too large\n"], evs, SessionEnd.chunkTooLarge⟩ := by
  simp only [otaLoop]
  rw [if_pos h]

theorem otaLoop_fw_too_large (data : List Nat) (rest : List OTAMsg) (total : Nat)
    (hacc erased : List Nat) (outs : List String) (evs : List FlashEv)
    (h1 : data.length ≤ otaBufSize) (h2 : otaMaxFwSize < total + data.length) :
    otaLoop (OTAMsg.chunk data :: rest) total hacc erased outs evs =
      ⟨outs ++ ["ERROR firmware too large\n"], evs, SessionEnd.firmwareTooLarge⟩ := by
  simp only [otaLoop]
  rw [if_neg (not_lt.mpr h1), if_pos h2]

theorem otaLoop_done (rest : List Char) (ms : List OTAMsg) (total : Nat)
    (hacc erased : List Nat) (outs : List String) (evs : List FlashEv) :
    otaLoop (OTAMsg.done rest :: ms) total hacc erased outs evs =
      if doneExpected rest ≠ [] ∧ doneExpected rest ≠ formatHashHex (sha256 hacc) then
        ⟨outs ++ ["ERROR hash mismatch\n"], evs, SessionEnd.hashMismatch⟩
      else ⟨outs ++ ["VERIFIED\n"], evs, SessionEnd.reboot⟩ := rfl

theorem handleOTASession_good (msgs : List OTAMsg) :
    handleOTASession otaInit msgs = otaLoop msgs 0 [] [] [readyLine] [] := rfl

/-- Processing a stream of accepted chunks advances the loop state by the
closed-form byte count, hash input, bitmap, `ACK` lines and flash events. -/
theorem otaLoop_chunks (ds : List (List Nat)) :
    ∀ (ms : List OTAMsg) (total : Nat) (hacc erased : List Nat) (outs : List String)
      (evs : List FlashEv), chunksOK total ds = true →
    otaLoop (ds.map OTAMsg.chunk ++ ms) total hacc erased outs evs =
      otaLoop ms (total + sumLens ds) (hacc ++ ds.flatten) (chunkTrace erased total ds).1
        (outs ++ ackLines total ds) (evs ++ (chunkTrace erased total ds).2) := by
  induction ds with
  | nil =>
      intro ms total hacc erased outs evs _
      simp [sumLens, ackLines, chunkTrace]
  | cons d ds ih =>
      intro ms total hacc erased outs evs h
      simp only [chunksOK, Bool.and_eq_true, decide_eq_true_eq] at h
      obtain ⟨⟨h1, h2⟩, h3⟩ := h
      simp only [List.map_cons, List.cons_append]
      rw [otaLoop_chunk_step d _ total hacc erased outs evs h1 h2]
      rw [ih _ _ _ _ _ _ h3]
      simp [chunkTrace, sumLens, ackLines, List.append_assoc, Nat.add_assoc]

theorem trimSpace_nil_mem (l : List Char) (h : trimSpace l = []) : ∀ c ∈ l, isTrimChar c := by
  unfold trimSpace at h
  rw [List.reverse_eq_nil_iff, List.dropWhile_eq_nil_iff] at h
  intro c hc
  rcases List.mem_append.mp ((List.takeWhile_append_dropWhile (p := isTrimChar) (l := l)) ▸ hc) with h1 | h1
  · exact List.mem_takeWhile_imp h1
  · exact h c (List.mem_reverse.mpr h1)

/-- A completion line whose bytes after `DONE` are all whitespace parses to
an empty client digest. -/
theorem doneExpected_of_trim_nil (rest : List Char) (h : trimSpace rest = []) :
    doneExpected rest = [] := by
  unfold doneExpected
  by_cases hl : 5 < (['D', 'O', 'N', 'E'] ++ rest).length
  · rw [if_pos hl]
    have hdrop : (['D', 'O', 'N', 'E'] ++ rest).drop 5 = rest.drop 1 := by
      simp [List.drop_append]
    rw [hdrop]
    have hall := trimSpace_nil_mem rest h
    unfold trimSpace
    rw [List.reverse_eq_nil_iff, List.dropWhile_eq_nil_iff]
    intro x hx
    have hx2 : x ∈ rest.drop 1 := List.dropWhile_subset _ (List.mem_reverse.mp hx)
    exact hall x (List.drop_subset _ _ hx2)
  · rw [if_neg hl]

/-- C1 (amended): in the Verifying step, for every completed chunk stream and
every non-empty client-supplied digest, the server compares the locally
accumulated SHA-256 digest against the client-supplied digest by exact
case-SENSITIVE string equality with the lowercase hex of the local digest:
on an exact match it replies `VERIFIED` and proceeds to the
reboot-to-partition call; otherwise it replies `ERROR hash mismatch` and
aborts the session without ever reaching the reboot-to-partition call. -/
theorem claim_C1_amended (ds : List (List Nat)) (rest : List Char)
    (hok : chunksOK 0 ds = true) (hne : doneExpected rest ≠ []) :
    (doneExpected rest = sessionDigestHex ds →
      handleOTASession otaInit (ds.map OTAMsg.chunk ++ [OTAMsg.done rest]) =
        ⟨readyLine :: ackLines 0 ds ++ ["VERIFIED\n"],
         (chunkTrace [] 0 ds).2, SessionEnd.reboot⟩) ∧
    (doneExpected rest ≠ sessionDigestHex ds →
      handleOTASession otaInit (ds.map OTAMsg.chunk ++ [OTAMsg.done rest]) =
        ⟨readyLine :: ackLines 0 ds ++ ["ERROR hash mismatch\n"],
         (chunkTrace [] 0 ds).2, SessionEnd.hashMismatch⟩) := by
  rw [handleOTASession_good, otaLoop_chunks ds _ 0 [] [] [readyLine] [] hok, otaLoop_done]
  simp only [List.nil_append, sessionDigestHex]
  constructor
  · intro heq
    rw [if_neg (by simp [heq])]
    simp
  · intro hne2
    rw [if_pos ⟨hne, by simpa [sessionDigestHex] using hne2⟩]
    simp

/-- C1 counterexample: a client digest that matches the locally accumulated
digest case-insensitively but is written in uppercase is rejected with
`ERROR hash mismatch`, so the comparison is not case-insensitive as the
claim states. -/
theorem claim_C1_counterexample :
    doneExpected " E3B0C44298FC1C149AFBF4C8996FB92427AE41E4649B934CA495991B7852B855\n".data ≠ [] ∧
    lowerEqList
      (doneExpected " E3B0C44298FC1C149AFBF4C8996FB92427AE41E4649B934CA495991B7852B855\n".data)
      (sessionDigestHex []) = true ∧
    handleOTASession otaInit
      [OTAMsg.done " E3B0C44298FC1C149AFBF4C8996FB92427AE41E4649B934CA495991B7852B855\n".data] =
      ⟨[readyLine, "ERROR hash mismatch\n"], [], SessionEnd.hashMismatch⟩ := by
  refine ⟨by decide, by decide, by decide⟩

/-- C2: if the completion line `DONE` carries no digest (the bytes after
`DONE` trim to an empty string), `handleOTASession` skips the digest
comparison entirely, replies `VERIFIED`, and proceeds to the
reboot-to-partition call: the image is accepted without any verification. -/
theorem claim_C2 (ds : List (List Nat)) (rest : List Char)
    (hok : chunksOK 0 ds = true) (hempty : trimSpace rest = []) :
    handleOTASession otaInit (ds.map OTAMsg.chunk ++ [OTAMsg.done rest]) =
      ⟨readyLine :: ackLines 0 ds ++ ["VERIFIED\n"],
       (chunkTrace [] 0 ds).2, SessionEnd.reboot⟩ := by
  rw [handleOTASession_good, otaLoop_chunks ds _ 0 [] [] [readyLine] [] hok, otaLoop_done]
  rw [if_neg (by simp [doneExpected_of_trim_nil rest hempty])]
  simp

/-- C2 witness: a one-chunk session completed by a bare `DONE` line is
accepted and rebooted with no digest check. -/
theorem claim_C2_witness :
    handleOTASession otaInit ([[7]].map OTAMsg.chunk ++ [OTAMsg.done "\n".data]) =
      ⟨readyLine :: ackLines 0 [[7]] ++ ["VERIFIED\n"],
       (chunkTrace [] 0 [[7]]).2, SessionEnd.reboot⟩ :=
  claim_C2 [[7]] "\n".data (by decide) (by decide)

/-- C1 witness: the amended C1 at the empty chunk stream with the correct
lowercase digest of the empty image. -/
theorem claim_C1_witness :
    (doneExpected " e3b0c44298fc1c149afbf4c8996fb92427ae41e4649b934ca495991b7852b855\n".data =
        sessionDigestHex [] →
      handleOTASession otaInit
        (([] : List (List Nat)).map OTAMsg.chunk ++
          [OTAMsg.done " e3b0c44298fc1c149afbf4c8996fb92427ae41e4649b934ca495991b7852b855\n".data]) =
        ⟨readyLine :: ackLines 0 [] ++ ["VERIFIED\n"],
         (chunkTrace [] 0 []).2, SessionEnd.reboot⟩) ∧
    (doneExpected " e3b0c44298fc1c149afbf4c8996fb92427ae41e4649b934ca495991b7852b855\n".data ≠
        sessionDigestHex [] →
      handleOTASession otaInit
        (([] : List (List Nat)).map OTAMsg.chunk ++
          [OTAMsg.done " e3b0c44298fc1c149afbf4c8996fb92427ae41e4649b934ca495991b7852b855\n".data]) =
        ⟨readyLine :: ackLines 0 [] ++ ["ERROR hash mismatch\n"],
         (chunkTrace [] 0 []).2, SessionEnd.hashMismatch⟩) :=
  claim_C1_amended []
    " e3b0c44298fc1c149afbf4c8996fb92427ae41e4649b934ca495991b7852b855\n".data
    (by decide) (by decide)

theorem chunksOK_replicate (k : Nat) :
    ∀ total, total + k * 4096 ≤ otaMaxFwSize →
      chunksOK total (List.replicate k (List.replicate 4096 0)) = true := by
  induction k with
  | zero => intro total _; simp [chunksOK]
  | succ k ih =>
      intro total h
      rw [List.replicate_succ]
      simp only [chunksOK, Bool.and_eq_true, decide_eq_true_eq, List.length_replicate]
      refine ⟨⟨by decide, ?_⟩, ?_⟩
      · have : total + (k + 1) * 4096 = total + 4096 + k * 4096 := by ring
        omega
      · refine ih (total + 4096) ?_
        have : total + (k + 1) * 4096 = total + 4096 + k * 4096 := by ring
        omega

theorem sumLens_replicate (k : Nat) :
    sumLens (List.replicate k (List.replicate 4096 (0 : Nat))) = k * 4096 := by
  induction k with
  | zero => simp [sumLens]
  | succ k ih =>
      rw [List.replicate_succ]
      simp only [sumLens, List.length_replicate, ih]
      ring

/-- C4 counterexample: a malformed handshake (`XYZ` instead of `OTA`) aborts
the session with no output at all — no `ERROR` line is ever written on the
connection, contrary to the claim. -/
theorem claim_C4_counterexample :
    handleOTASession ['X', 'Y', 'Z', '\n'] [OTAMsg.chunk [1, 2, 3]] =
      ⟨[], [], SessionEnd.badInit⟩ := by decide

/-- C4 (amended): an oversize chunk and an oversize cumulative image each
write an explicit `ERROR` line before the session is aborted, and a
malformed completion line is rejected through the digest comparison with an
explicit `ERROR hash mismatch` line; a malformed handshake, however, aborts
the session and drops the connection without writing any `ERROR` line. -/
theorem claim_C4_amended :
    (∀ (init : List Char) (msgs : List OTAMsg), init.take 3 ≠ ['O', 'T', 'A'] →
      (handleOTASession init msgs).outputs = [] ∧
      (handleOTASession init msgs).outcome ≠ SessionEnd.reboot) ∧
    (∀ (ds : List (List Nat)) (d : List Nat) (ms : List OTAMsg), chunksOK 0 ds = true →
      otaBufSize < d.length →
      handleOTASession otaInit (ds.map OTAMsg.chunk ++ OTAMsg.chunk d :: ms) =
        ⟨readyLine :: ackLines 0 ds ++ ["ERROR chunk too large\n"],
         (chunkTrace [] 0 ds).2, SessionEnd.chunkTooLarge⟩) ∧
    (∀ (ds : List (List Nat)) (d : List Nat) (ms : List OTAMsg), chunksOK 0 ds = true →
      d.length ≤ otaBufSize → otaMaxFwSize < sumLens ds + d.length →
      handleOTASession otaInit (ds.map OTAMsg.chunk ++ OTAMsg.chunk d :: ms) =
        ⟨readyLine :: ackLines 0 ds ++ ["ERROR firmware too large\n"],
         (chunkTrace [] 0 ds).2, SessionEnd.firmwareTooLarge⟩) ∧
    (∀ (ds : List (List Nat)) (rest : List Char), chunksOK 0 ds = true →
      doneExpected rest ≠ [] → doneExpected rest ≠ sessionDigestHex ds →
      handleOTASession otaInit (ds.map OTAMsg.chunk ++ [OTAMsg.done rest]) =
        ⟨readyLine :: ackLines 0 ds ++ ["ERROR hash mismatch\n"],
         (chunkTrace [] 0 ds).2, SessionEnd.hashMismatch⟩) := by
  refine ⟨?_, ?_, ?_, ?_⟩
  · intro init msgs h
    unfold handleOTASession
    by_cases h3 : init.length < 3
    · rw [if_pos h3]
      exact ⟨rfl, by decide⟩
    · rw [if_neg h3, if_pos h]
      exact ⟨rfl, by decide⟩
  · intro ds d ms hok h
    rw [handleOTASession_good, otaLoop_chunks ds _ 0 [] [] [readyLine] [] hok,
      otaLoop_chunk_too_large _ _ _ _ _ _ _ h]
    simp
  · intro ds d ms hok h1 h2
    rw [handleOTASession_good, otaLoop_chunks ds _ 0 [] [] [readyLine] [] hok,
      otaLoop_fw_too_large _ _ _ _ _ _ _ h1 (by omega)]
    simp
  · intro ds rest hok hne hne2
    rw [handleOTASession_good, otaLoop_chunks ds _ 0 [] [] [readyLine] [] hok, otaLoop_done]
    rw [if_pos ⟨hne, by simpa [sessionDigestHex] using hne2⟩]
    simp

/-- C4 witness: the four parts of the amended C4 at concrete sessions. -/
theorem claim_C4_witness :
    ((handleOTASession ['A', 'B', 'C'] []).outputs = [] ∧
      (handleOTASession ['A', 'B', 'C'] []).outcome ≠ SessionEnd.reboot) ∧
    (handleOTASession otaInit
        (([] : List (List Nat)).map OTAMsg.chunk ++ OTAMsg.chunk (List.replicate 4161 0) :: []) =
      ⟨readyLine :: ackLines 0 [] ++ ["ERROR chunk too large\n"],
       (chunkTrace [] 0 []).2, SessionEnd.chunkTooLarge⟩) ∧
    (handleOTASession otaInit
        ((List.replicate 496 (List.replicate 4096 0)).map OTAMsg.chunk ++ OTAMsg.chunk [0] :: []) =
      ⟨readyLine :: ackLines 0 (List.replicate 496 (List.replicate 4096 0)) ++
         ["ERROR firmware too large\n"],
       (chunkTrace [] 0 (List.replicate 496 (List.replicate 4096 0))).2,
       SessionEnd.firmwareTooLarge⟩) ∧
    (handleOTASession otaInit (([] : List (List Nat)).map OTAMsg.chunk ++ [OTAMsg.done "DEAD\n".data]) =
      ⟨readyLine :: ackLines 0 [] ++ ["ERROR hash mismatch\n"],
       (chunkTrace [] 0 []).2, SessionEnd.hashMismatch⟩) :=
  ⟨claim_C4_amended.1 ['A', 'B', 'C'] [] (by decide),
   claim_C4_amended.2.1 [] (List.replicate 4161 0) [] (by decide)
     (by rw [List.length_replicate]; decide),
   claim_C4_amended.2.2.1 (List.replicate 496 (List.replicate 4096 0)) [0] []
     (chunksOK_replicate 496 0 (by decide))
     (by decide)
     (by rw [sumLens_replicate]; decide),
   claim_C4_amended.2.2.2 [] "DEAD\n".data (by decide) (by decide) (by decide)⟩

/-- C5 counterexample: a chunk whose length field claims 4097 bytes —
strictly greater than the 4096-byte maximum chunk size — is NOT rejected:
the session erases two sectors, programs the 4097 bytes to flash and replies
`ACK 4097`, contrary to the claim. -/
theorem claim_C5_counterexample :
    handleOTASession otaInit [OTAMsg.chunk (List.replicate 4097 0)] =
      ⟨[readyLine, "ACK 4097\n"],
       [FlashEv.erase 0, FlashEv.erase 1, FlashEv.write 0 4097],
       SessionEnd.readTimeout⟩ := by
  rw [handleOTASession_good,
    otaLoop_chunk_step _ _ _ _ _ _ _ (by rw [List.length_replicate]; decide)
      (by rw [List.length_replicate]; decide)]
  simp only [List.length_replicate]
  rw [otaLoop_nil]
  decide

/-- C5 (amended): a received chunk-length value strictly greater than the
chunk buffer size of 4160 bytes (4096 + 64, `len(otaChunk)`) — not 4096 — is
rejected with `ERROR chunk too large` and the session is aborted with no
further flash event; any length of at most 4160 bytes that also fits the
firmware-size budget is accepted: the chunk is hashed, programmed to flash
and acknowledged. -/
theorem claim_C5_amended :
    (∀ (ds : List (List Nat)) (d : List Nat) (ms : List OTAMsg), chunksOK 0 ds = true →
      otaBufSize < d.length →
      handleOTASession otaInit (ds.map OTAMsg.chunk ++ OTAMsg.chunk d :: ms) =
        ⟨readyLine :: ackLines 0 ds ++ ["ERROR chunk too large\n"],
         (chunkTrace [] 0 ds).2, SessionEnd.chunkTooLarge⟩) ∧
    (∀ (ds : List (List Nat)) (d : List Nat) (ms : List OTAMsg), chunksOK 0 ds = true →
      d.length ≤ otaBufSize → sumLens ds + d.length ≤ otaMaxFwSize →
      handleOTASession otaInit (ds.map OTAMsg.chunk ++ OTAMsg.chunk d :: ms) =
        otaLoop ms (sumLens ds + d.length) (ds.flatten ++ d)
          (eraseLoop (chunkSectors (sumLens ds) d.length) (chunkTrace [] 0 ds).1).1
          (readyLine :: (ackLines 0 ds ++ ["ACK " ++ Nat.repr (sumLens ds + d.length) ++ "\n"]))
          ((chunkTrace [] 0 ds).2 ++
            (eraseLoop (chunkSectors (sumLens ds) d.length) (chunkTrace [] 0 ds).1).2 ++
            [FlashEv.write (sumLens ds) d.length])) := by
  constructor
  · intro ds d ms hok h
    rw [handleOTASession_good, otaLoop_chunks ds _ 0 [] [] [readyLine] [] hok,
      otaLoop_chunk_too_large _ _ _ _ _ _ _ h]
    simp
  · intro ds d ms hok h1 h2
    rw [handleOTASession_good, otaLoop_chunks ds _ 0 [] [] [readyLine] [] hok,
      otaLoop_chunk_step _ _ _ _ _ _ _ h1 (by omega)]
    simp [List.append_assoc]

/-- C5 witness: the amended C5 at a 4161-byte chunk (rejected) and a
4097-byte chunk (accepted). -/
theorem claim_C5_witness :
    (handleOTASession otaInit
        (([] : List (List Nat)).map OTAMsg.chunk ++ OTAMsg.chunk (List.replicate 4161 0) :: []) =
      ⟨readyLine :: ackLines 0 [] ++ ["ERROR chunk too large\n"],
       (chunkTrace [] 0 []).2, SessionEnd.chunkTooLarge⟩) ∧
    (handleOTASession otaInit
        (([] : List (List Nat)).map OTAMsg.chunk ++ OTAMsg.chunk (List.replicate 4097 0) :: []) =
      otaLoop [] (sumLens [] + (List.replicate 4097 (0 : Nat)).length)
        (([] : List (List Nat)).flatten ++ List.replicate 4097 0)
        (eraseLoop (chunkSectors (sumLens []) (List.replicate 4097 (0 : Nat)).length)
          (chunkTrace [] 0 []).1).1
        (readyLine :: (ackLines 0 [] ++
          ["ACK " ++ Nat.repr (sumLens [] + (List.replicate 4097 (0 : Nat)).length) ++ "\n"]))
        ((chunkTrace [] 0 []).2 ++
          (eraseLoop (chunkSectors (sumLens []) (List.replicate 4097 (0 : Nat)).length)
            (chunkTrace [] 0 []).1).2 ++
          [FlashEv.write (sumLens []) (List.replicate 4097 (0 : Nat)).length])) :=
  ⟨claim_C5_amended.1 [] (List.replicate 4161 0) [] (by decide)
     (by rw [List.length_replicate]; decide),
   claim_C5_amended.2 [] (List.replicate 4097 0) [] (by decide)
     (by rw [List.length_replicate]; decide)
     (by simp only [sumLens, List.length_replicate]; decide)⟩

/-- C10: feeding a 10,000-byte image as 3 chunks of 4096, 4096 and 1808
bytes produces the reply sequence `ACK 4096`, `ACK 8192`, `ACK 10000`, and
exactly 3 distinct 4 KiB sector indices (0, 1, 2) are erased, each exactly
once, each erase immediately preceding the first write into that sector. -/
theorem claim_C10 :
    handleOTASession otaInit
      [OTAMsg.chunk (List.replicate 4096 1), OTAMsg.chunk (List.replicate 4096 2),
       OTAMsg.chunk (List.replicate 1808 3)] =
      ⟨[readyLine, "ACK 4096\n", "ACK 8192\n", "ACK 10000\n"],
       [FlashEv.erase 0, FlashEv.write 0 4096, FlashEv.erase 1, FlashEv.write 4096 4096,
        FlashEv.erase 2, FlashEv.write 8192 1808],
       SessionEnd.readTimeout⟩ ∧
    eraseEvents
      [FlashEv.erase 0, FlashEv.write 0 4096, FlashEv.erase 1, FlashEv.write 4096 4096,
       FlashEv.erase 2, FlashEv.write 8192 1808] =
      [FlashEv.erase 0, FlashEv.erase 1, FlashEv.erase 2] := by
  constructor
  · rw [handleOTASession_good,
      otaLoop_chunk_step _ _ _ _ _ _ _ (by rw [List.length_replicate]; decide)
        (by rw [List.length_replicate]; decide)]
    simp only [List.length_replicate]
    rw [otaLoop_chunk_step _ _ _ _ _ _ _ (by rw [List.length_replicate]; decide)
        (by rw [List.length_replicate]; decide)]
    simp only [List.length_replicate]
    rw [otaLoop_chunk_step _ _ _ _ _ _ _ (by rw [List.length_replicate]; decide)
        (by rw [List.length_replicate]; decide)]
    simp only [List.length_replicate]
    rw [otaLoop_nil]
    decide
  · decide

/-- C3: the code evaluated at the failing input.  One second after
`ota-enable`, the window is still valid; yet after a session that aborts
with a hash-mismatch error, `otaServerLoop` runs its unconditional
`OTADisable()` (line 214), so the window is disabled and a fresh
`ota-enable` is required — the claim (and the spec, and the code's own
comment `Disable OTA after successful session`) say an error-aborted session
should leave the listener re-armed while the window is valid. -/
theorem claim_C3_code_eval :
    (OTAIsEnabled (OTAEnable ⟨false, 0, 0⟩ 0 0) 1000000000).1 = true ∧
    otaServerLoopIter (OTAEnable ⟨false, 0, 0⟩ 0 0) (LoopEvent.session SessionEnd.hashMismatch) =
      OTADisable (OTAEnable ⟨false, 0, 0⟩ 0 0) ∧
    (OTAIsEnabled (otaServerLoopIter (OTAEnable ⟨false, 0, 0⟩ 0 0)
        (LoopEvent.session SessionEnd.hashMismatch)) 1000000000).1 = false := by
  decide

/-- C7 counterexample: at the exact boundary where the elapsed time equals
the configured timeout, `OTAIsEnabled` still returns true, although the
claimed formula `enabled && now - enabledAt < timeout` (strict) is false
there: the code uses `time.Since(otaEnabledAt) > otaTimeout`, so expiry is
non-strict. -/
theorem claim_C7_counterexample :
    (OTAIsEnabled (OTAEnable ⟨false, 0, 0⟩ 0 5) 5).1 = true ∧ ¬(5 - 0 < 5) := by decide

/-- C7 (amended): `OTAIsEnabled()` returns true exactly when the enabled
flag is set and the elapsed time since the enable call is AT MOST (not
strictly less than) the configured timeout, with expiry evaluated lazily at
query time; `OTADisable()` makes `OTAIsEnabled()` false immediately
regardless of remaining time. -/
theorem claim_C7_amended (st : OTAState) (now : Nat) :
    (OTAIsEnabled st now).1 = (st.otaEnabled && decide (now - st.otaEnabledAt ≤ st.otaTimeout)) ∧
    (OTAIsEnabled (OTADisable st) now).1 = false := by
  constructor
  · cases hb : st.otaEnabled
    · simp [OTAIsEnabled, hb]
    · by_cases ht : st.otaTimeout < now - st.otaEnabledAt
      · have hle : ¬(now - st.otaEnabledAt ≤ st.otaTimeout) := by omega
        simp [OTAIsEnabled, hb, ht, hle]
      · have hle : now - st.otaEnabledAt ≤ st.otaTimeout := by omega
        simp [OTAIsEnabled, hb, ht, hle]
  · simp [OTAIsEnabled, OTADisable]

/-- C8: assuming less than 12 hours have elapsed since the last success,
exactly 3 consecutive duty-cycle failure reports with no intervening success
set the health flag to false (and 1 or 2 failures do not), while 2 failures
followed by 1 success leave the flag true, reset the consecutive-failure
counter to zero, and update the last-success timestamp. -/
theorem claim_C8 (t0 t1 t2 t3 : Nat)
    (h1 : t1 - t0 < maxNsWithoutRefresh) (h2 : t2 - t0 < maxNsWithoutRefresh)
    (h3 : t3 - t0 < maxNsWithoutRefresh) :
    (reportFailure (⟨t0, 0, true⟩ : HealthState) t1).systemHealthy = true ∧
    (reportFailure (reportFailure ⟨t0, 0, true⟩ t1) t2).systemHealthy = true ∧
    (reportFailure (reportFailure (reportFailure ⟨t0, 0, true⟩ t1) t2) t3).systemHealthy = false ∧
    reportSuccess (reportFailure (reportFailure ⟨t0, 0, true⟩ t1) t2) t3 = ⟨t3, 0, true⟩ := by
  have s1 : reportFailure (⟨t0, 0, true⟩ : HealthState) t1 = ⟨t0, 1, true⟩ := by
    unfold reportFailure checkSystemHealth
    dsimp only
    rw [if_neg (by simp [maxConsecutiveFailures]), if_neg (by omega)]
  have s2 : reportFailure (⟨t0, 1, true⟩ : HealthState) t2 = ⟨t0, 2, true⟩ := by
    unfold reportFailure checkSystemHealth
    dsimp only
    rw [if_neg (by simp [maxConsecutiveFailures]), if_neg (by omega)]
  have s3 : reportFailure (⟨t0, 2, true⟩ : HealthState) t3 = ⟨t0, 3, false⟩ := by
    unfold reportFailure checkSystemHealth
    dsimp only
    rw [if_pos (by simp [maxConsecutiveFailures])]
  refine ⟨by rw [s1], by rw [s1, s2], by rw [s1, s2, s3], by rw [s1, s2]; rfl⟩

/-- C8 witness: C8 at concrete nanosecond timestamps 0, 1, 2, 3. -/
theorem claim_C8_witness :
    (reportFailure (⟨0, 0, true⟩ : HealthState) 1).systemHealthy = true ∧
    (reportFailure (reportFailure ⟨0, 0, true⟩ 1) 2).systemHealthy = true ∧
    (reportFailure (reportFailure (reportFailure ⟨0, 0, true⟩ 1) 2) 3).systemHealthy = false ∧
    reportSuccess (reportFailure (reportFailure ⟨0, 0, true⟩ 1) 2) 3 = ⟨3, 0, true⟩ :=
  claim_C8 0 1 2 3 (by decide) (by decide) (by decide)

theorem dutyStep_healthy_false (st : HealthState) (s : DutyStep)
    (h : st.systemHealthy = false) : (dutyStep st s).systemHealthy = false := by
  cases s with
  | fail now =>
      simp only [dutyStep, reportFailure, checkSystemHealth]
      split_ifs <;> simp [h]
  | succeed now => simp [dutyStep, reportSuccess, h]
  | feed => simpa [dutyStep] using h
  | fatal => simp [dutyStep]

theorem dutyStep_healthy_mono (st : HealthState) (s : DutyStep)
    (h : (dutyStep st s).systemHealthy = true) : st.systemHealthy = true := by
  by_cases hb : st.systemHealthy
  · exact hb
  · rw [dutyStep_healthy_false st s (by simpa using hb)] at h
    exact absurd h (by simp)

/-- C9: once the health flag `systemHealthy` has become false, no subsequent
step of the program ever feeds the hardware watchdog again, and no
subsequent success report ever sets the flag back to true within the same
run: the flag transitions only from true to false. -/
theorem claim_C9 (st : HealthState) (l : List DutyStep) (h : st.systemHealthy = false) :
    ((runDuty st l).systemHealthy = false ∧ anyFeed st l = false) ∧
    (∀ (st2 : HealthState) (s : DutyStep),
      (dutyStep st2 s).systemHealthy = true → st2.systemHealthy = true) := by
  refine ⟨?_, fun st2 s => dutyStep_healthy_mono st2 s⟩
  induction l generalizing st with
  | nil => exact ⟨h, rfl⟩
  | cons s l ih =>
      have hf : dutyFeeds st s = false := by
        cases s <;> simp [dutyFeeds, feedWatchdogIfHealthy, h]
      have hrec := ih (dutyStep st s) (dutyStep_healthy_false st s h)
      simp only [runDuty, anyFeed, hf, Bool.false_or]
      exact hrec

/-- C9 witness: C9 from an unhealthy state over a run containing feeds,
a success report and a failure report. -/
theorem claim_C9_witness :
    ((runDuty ⟨0, 0, false⟩ [DutyStep.feed, DutyStep.succeed 5, DutyStep.feed, DutyStep.fail 6,
        DutyStep.feed]).systemHealthy = false ∧
      anyFeed ⟨0, 0, false⟩ [DutyStep.feed, DutyStep.succeed 5, DutyStep.feed, DutyStep.fail 6,
        DutyStep.feed] = false) ∧
    (∀ (st2 : HealthState) (s : DutyStep),
      (dutyStep st2 s).systemHealthy = true → st2.systemHealthy = true) :=
  claim_C9 ⟨0, 0, false⟩
    [DutyStep.feed, DutyStep.succeed 5, DutyStep.feed, DutyStep.fail 6, DutyStep.feed] rfl

/-- The erase-on-demand loop, run over sectors `lo, lo+1, .., lo+n-1` with a
bitmap that currently marks exactly the sectors `< E`, erases exactly the new
sectors `E, .., lo+n-1` in increasing order and leaves the bitmap marking the
sectors `< max E (lo+n)`. -/
theorem eraseLoop_range (n : Nat) :
    ∀ (lo E : Nat), lo ≤ E → lo + n ≤ erasedSectorsLen →
      eraseLoop (List.range' lo n) (List.range E) =
        (List.range (max E (lo + n)), (List.range' E (lo + n - E)).map FlashEv.erase) := by
  induction n with
  | zero =>
      intro lo E hle _
      simp [eraseLoop, Nat.max_eq_left hle, Nat.sub_eq_zero_of_le hle]
  | succ n ih =>
      intro lo E hle hbound
      rw [List.range'_succ lo n 1]
      by_cases hlo : lo < E
      · rw [eraseLoop, if_neg (by simp [List.mem_range, hlo])]
        rw [ih (lo + 1) E hlo (by omega)]
        have h1 : lo + 1 + n = lo + (n + 1) := by omega
        rw [h1]
      · have heq : lo = E := Nat.le_antisymm hle (Nat.not_lt.mp hlo)
        subst heq
        rw [eraseLoop, if_pos (by simp [List.mem_range]; omega)]
        dsimp only
        rw [show List.range lo ++ [lo] = List.range (lo + 1) from (List.range_succ lo).symm]
        rw [ih (lo + 1) (lo + 1) (Nat.le_refl _) (by omega)]
        have h1 : max (lo + 1) (lo + 1 + n) = lo + 1 + n := by omega
        have h2 : max lo (lo + (n + 1)) = lo + (n + 1) := by omega
        have h3 : lo + 1 + n - (lo + 1) = n := by omega
        have h4 : lo + (n + 1) - lo = n + 1 := by omega
        rw [h1, h2, h3, h4]
        refine congrArg₂ Prod.mk ?_ ?_
        · exact congrArg List.range (by omega)
        · rw [List.range'_succ lo n 1]
          simp

/-- For a non-empty chunk that passed the size checks, the `uint32`
expression for `endSector` does not wrap: it is `(total + len - 1) / 4096`. -/
theorem endSector_no_wrap (total len : Nat) (h1 : 1 ≤ len) (h2 : total + len ≤ otaMaxFwSize) :
    (total + len + (M32 - 1)) % M32 = total + len - 1 := by
  have hlt : total + len - 1 < M32 := by
    simp only [otaMaxFwSize] at h2
    simp only [M32]
    omega
  have hshift : total + len + (M32 - 1) = (total + len - 1) + M32 := by
    have : 1 ≤ M32 := by simp [M32]
    omega
  rw [hshift, Nat.add_mod_right, Nat.mod_eq_of_lt hlt]

/-- Ceiling-by-sector is monotone. -/
theorem ceilSec_mono {a b : Nat} (h : a ≤ b) : ceilSec a ≤ ceilSec b :=
  Nat.div_le_div_right (by omega)

/-- One accepted non-empty chunk erases exactly the fresh sectors
`ceilSec total, .., ceilSec (total+len) - 1` and leaves the bitmap marking
the sectors `< ceilSec (total+len)`. -/
theorem chunk_erase_spec (total len : Nat) (h1 : 1 ≤ len) (h2 : total + len ≤ otaMaxFwSize) :
    eraseLoop (chunkSectors total len) (List.range (ceilSec total)) =
      (List.range (ceilSec (total + len)),
       (List.range' (ceilSec total) (ceilSec (total + len) - ceilSec total)).map FlashEv.erase) := by
  unfold chunkSectors
  rw [endSector_no_wrap total len h1 h2]
  have hstart_le : total / sectorSize ≤ ceilSec total := by
    unfold ceilSec
    exact Nat.div_le_div_right (by omega)
  have hend : (total + len - 1) / sectorSize + 1 = ceilSec (total + len) := by
    unfold ceilSec sectorSize
    omega
  have hstart_le_end : total / sectorSize ≤ (total + len - 1) / sectorSize := by
    exact Nat.div_le_div_right (by omega)
  have hsum : total / sectorSize + ((total + len - 1) / sectorSize + 1 - total / sectorSize) =
      ceilSec (total + len) := by
    rw [← hend]
    omega
  have hbound : ceilSec (total + len) ≤ erasedSectorsLen := by
    unfold ceilSec sectorSize erasedSectorsLen
    simp only [otaMaxFwSize] at h2
    omega
  have := eraseLoop_range ((total + len - 1) / sectorSize + 1 - total / sectorSize)
    (total / sectorSize) (ceilSec total) hstart_le (by omega)
  rw [this, hsum]
  have hmax : max (ceilSec total) (ceilSec (total + len)) = ceilSec (total + len) :=
    Nat.max_eq_right (ceilSec_mono (by omega))
  rw [hmax]

theorem countErase_append (a b : List FlashEv) (s : Nat) :
    countErase (a ++ b) s = countErase a s + countErase b s := by
  simp [countErase, List.filter_append]

theorem countErase_write (o l : Nat) (tr : List FlashEv) (s : Nat) :
    countErase (FlashEv.write o l :: tr) s = countErase tr s := by
  simp [countErase, List.filter_cons]

theorem countErase_eraseRange (k : Nat) :
    ∀ (a s : Nat), countErase ((List.range' a k).map FlashEv.erase) s =
      if a ≤ s ∧ s < a + k then 1 else 0 := by
  induction k with
  | zero =>
      intro a s
      simp [countErase]
      split_ifs <;> omega
  | succ k ih =>
      intro a s
      rw [List.range'_succ a k 1]
      simp only [List.map_cons]
      by_cases hs : a = s
      · subst hs
        simp only [countErase, List.filter_cons, beq_self_eq_true, if_pos]
        have := ih (a + 1) a
        simp only [countErase] at this
        rw [List.length_cons, this, if_neg (by omega), if_pos (by omega)]
      · have hbeq : (FlashEv.erase a == FlashEv.erase s) = false := by
          simp [hs]
        simp only [countErase, List.filter_cons, hbeq, Bool.false_eq_true, if_false]
        have := ih (a + 1) s
        simp only [countErase] at this
        rw [this]
        split_ifs <;> omega

/-- Walking a run of erase events for the fresh sectors `a, .., a+k-1` over a
bitmap that marks exactly the sectors `< a` passes the checker and prepends
those sectors to the checker state. -/
theorem wellErased_eraseRange (k : Nat) :
    ∀ (a : Nat) (er : List Nat) (tr : List FlashEv),
      (∀ s, er.contains s = decide (s < a)) →
      wellErased ((List.range' a k).map FlashEv.erase ++ tr) er =
        wellErased tr ((List.range' a k).reverse ++ er) := by
  induction k with
  | zero =>
      intro a er tr _
      simp
  | succ k ih =>
      intro a er tr hspec
      rw [List.range'_succ a k 1]
      simp only [List.map_cons, List.cons_append]
      rw [wellErased]
      have ha : decide (a < a) = false := by simp
      rw [hspec a, ha]
      simp only [Bool.not_false, Bool.true_and]
      have hspec2 : ∀ s, ((a :: er).contains s) = decide (s < a + 1) := by
        intro s
        rw [List.contains_cons, hspec s]
        by_cases hs : s = a
        · subst hs
          simp
        · have : (s == a) = false := by simp [hs]
          rw [this, Bool.false_or]
          exact decide_eq_decide.mpr (by omega)
      rw [ih (a + 1) (a :: er) tr hspec2]
      rw [List.reverse_cons, List.append_assoc]
      simp

theorem contains_reverseRange_append (a k : Nat) (er : List Nat)
    (hspec : ∀ s, er.contains s = decide (s < a)) :
    ∀ s, ((List.range' a k).reverse ++ er).contains s = decide (s < a + k) := by
  intro s
  have hmem : s ∈ er ↔ s < a := by
    have h := hspec s
    rw [show er.contains s = decide (s ∈ er) from List.elem_eq_mem _ _] at h
    exact decide_eq_decide.mp h
  rw [show ((List.range' a k).reverse ++ er).contains s =
      decide (s ∈ (List.range' a k).reverse ++ er) from List.elem_eq_mem _ _]
  rw [decide_eq_decide]
  simp only [List.mem_append, List.mem_reverse, List.mem_range'_1]
  constructor
  · rintro (⟨h1, h2⟩ | hmem2)
    · omega
    · have := hmem.mp hmem2
      omega
  · intro hlt
    by_cases hs : s < a
    · exact Or.inr (hmem.mpr hs)
    · exact Or.inl ⟨by omega, by omega⟩

theorem writeSectors_all_contains (total len : Nat) (h1 : 1 ≤ len)
    (h2 : total + len ≤ otaMaxFwSize) (er2 : List Nat)
    (hspec : ∀ s, er2.contains s = decide (s < ceilSec (total + len))) :
    (writeSectors total len).all (fun s => er2.contains s) = true := by
  unfold writeSectors
  rw [if_neg (by omega)]
  rw [List.all_eq_true]
  intro s hs
  have hm := List.mem_range'_1.mp hs
  rw [hspec s]
  simp only [decide_eq_true_eq]
  have hse : total / sectorSize ≤ (total + len - 1) / sectorSize :=
    Nat.div_le_div_right (by omega)
  have hend : (total + len - 1) / sectorSize + 1 = ceilSec (total + len) := by
    unfold ceilSec sectorSize
    omega
  omega

theorem chunkTrace_wellErased (ds : List (List Nat)) :
    ∀ (total : Nat) (er : List Nat), chunksOK total ds = true → (∀ d ∈ ds, d ≠ []) →
      (∀ s, er.contains s = decide (s < ceilSec total)) →
      wellErased (chunkTrace (List.range (ceilSec total)) total ds).2 er = true := by
  induction ds with
  | nil => intro total er _ _ _; rfl
  | cons d ds ih =>
      intro total er hok hpos hspec
      simp only [chunksOK, Bool.and_eq_true, decide_eq_true_eq] at hok
      obtain ⟨⟨_, hm⟩, hok2⟩ := hok
      have hlen : 1 ≤ d.length := List.length_pos.mpr (hpos d (List.mem_cons_self d ds))
      simp only [chunkTrace]
      rw [chunk_erase_spec total d.length hlen hm]
      dsimp only
      rw [wellErased_eraseRange _ _ _ _ hspec]
      rw [wellErased]
      have hspec2 := contains_reverseRange_append (ceilSec total)
        (ceilSec (total + d.length) - ceilSec total) er hspec
      have hEk : ceilSec total + (ceilSec (total + d.length) - ceilSec total) =
          ceilSec (total + d.length) := by
        have := ceilSec_mono (show total ≤ total + d.length by omega)
        omega
      rw [hEk] at hspec2
      rw [writeSectors_all_contains total d.length hlen hm _ hspec2]
      simp only [Bool.true_and]
      exact ih (total + d.length) _ hok2 (fun x hx => hpos x (List.mem_cons_of_mem _ hx)) hspec2

theorem chunkTrace_count (ds : List (List Nat)) :
    ∀ (total : Nat), chunksOK total ds = true → (∀ d ∈ ds, d ≠ []) → ∀ s,
      countErase (chunkTrace (List.range (ceilSec total)) total ds).2 s =
        if ceilSec total ≤ s ∧ s < ceilSec (total + sumLens ds) then 1 else 0 := by
  induction ds with
  | nil =>
      intro total _ _ s
      simp only [chunkTrace, countErase, List.filter_nil, List.length_nil, sumLens,
        Nat.add_zero]
      split_ifs <;> omega
  | cons d ds ih =>
      intro total hok hpos s
      simp only [chunksOK, Bool.and_eq_true, decide_eq_true_eq] at hok
      obtain ⟨⟨_, hm⟩, hok2⟩ := hok
      have hlen : 1 ≤ d.length := List.length_pos.mpr (hpos d (List.mem_cons_self d ds))
      simp only [chunkTrace]
      rw [chunk_erase_spec total d.length hlen hm]
      dsimp only
      rw [countErase_append, countErase_write]
      rw [countErase_eraseRange]
      rw [ih (total + d.length) hok2 (fun x hx => hpos x (List.mem_cons_of_mem _ hx)) s]
      have hE1 : ceilSec total ≤ ceilSec (total + d.length) := ceilSec_mono (by omega)
      have hE2 : ceilSec (total + d.length) ≤ ceilSec (total + d.length + sumLens ds) :=
        ceilSec_mono (by omega)
      have hsum : total + sumLens (d :: ds) = total + d.length + sumLens ds := by
        simp only [sumLens]
        omega
      rw [hsum]
      have hEk : ceilSec total + (ceilSec (total + d.length) - ceilSec total) =
          ceilSec (total + d.length) := by omega
      rw [hEk]
      split_ifs <;> omega

/-- C6: within a single OTA session whose chunks arrive at monotonically
increasing contiguous offsets (all chunks non-empty; offsets are implicit
and contiguous by construction of the protocol), every 4 KiB flash sector
touched by the received bytes is erased exactly once and before the first
write into it, no sector is erased twice, and no untouched sector is erased
(the erased-sector bitmap starts all-false at the start of the session). -/
theorem claim_C6 (ds : List (List Nat)) (hok : chunksOK 0 ds = true)
    (hpos : ∀ d ∈ ds, d ≠ []) :
    wellErased (handleOTASession otaInit (ds.map OTAMsg.chunk)).events [] = true ∧
    ∀ s, countErase (handleOTASession otaInit (ds.map OTAMsg.chunk)).events s =
      if sectorSize * s < sumLens ds then 1 else 0 := by
  have hev : (handleOTASession otaInit (ds.map OTAMsg.chunk)).events =
      (chunkTrace [] 0 ds).2 := by
    rw [handleOTASession_good, show ds.map OTAMsg.chunk = ds.map OTAMsg.chunk ++ [] from
      (List.append_nil _).symm, otaLoop_chunks ds [] 0 [] [] [readyLine] [] hok, otaLoop_nil]
    simp
  constructor
  · have h := chunkTrace_wellErased ds 0 [] hok hpos
      (by intro s; simp [ceilSec, sectorSize])
    rw [show List.range (ceilSec 0) = ([] : List Nat) from rfl] at h
    rw [hev]
    exact h
  · intro s
    have h := chunkTrace_count ds 0 hok hpos s
    rw [show List.range (ceilSec 0) = ([] : List Nat) from rfl] at h
    rw [hev, h]
    have hiff : (ceilSec 0 ≤ s ∧ s < ceilSec (0 + sumLens ds)) ↔
        (sectorSize * s < sumLens ds) := by
      unfold ceilSec sectorSize
      omega
    rw [if_congr hiff rfl rfl]

/-- C6 witness: C6 at a one-byte single-chunk session. -/
theorem claim_C6_witness :
    wellErased (handleOTASession otaInit ([[5]].map OTAMsg.chunk)).events [] = true ∧
    ∀ s, countErase (handleOTASession otaInit ([[5]].map OTAMsg.chunk)).events s =
      if sectorSize * s < sumLens [[5]] then 1 else 0 :=
  claim_C6 [[5]] (by decide) (by decide)
